import Mathlib

/-!
Shallow embedding of the egui_wgpu_backend render pass (`src/lib.rs`).

GPU objects (wgpu buffers, textures, bind groups) are opaque handles: a
buffer is identified by a natural-number ident, and a bind group records
the data it was created from.  `f32` arithmetic in the clip-rectangle and
logical-size computations is modelled exactly over `ℚ`.  Calls that panic
in Rust are modelled with `Option` (`none` = panic).  Commands submitted
to the GPU queue or render pass are reified as explicit command lists so
that theorems can talk about what was written or drawn.
-/

namespace EguiWgpu

/-- egui `Color32`: a packed sRGBA color, four 8-bit channels. -/
structure Color32 where
  r : Nat
  g : Nat
  b : Nat
  a : Nat
deriving DecidableEq

/-- egui `Texture`: a version counter plus pixel payload of the given size. -/
structure Texture where
  version : Nat
  width : Nat
  height : Nat
  pixels : List Nat
deriving DecidableEq

/-- egui `TextureId`: the system (font) texture or a user-allocated id. -/
inductive TextureId where
  | Egui : TextureId
  | User (id : Nat) : TextureId
deriving DecidableEq

/-- A wgpu bind group, identified by what it was created from: either an
egui texture uploaded by `egui_texture_to_wgpu`, or an externally supplied
wgpu texture (identified by an opaque handle) registered through
`egui_texture_from_wgpu_texture`. -/
inductive BindGroup where
  | ofTexture (t : Texture) : BindGroup
  | ofWgpu (textureHandle : Nat) : BindGroup
deriving DecidableEq

/-- `SizedBuffer` from the source: a wgpu buffer handle (modelled as a
natural-number ident) together with its byte capacity (`size`). -/
structure SizedBuffer where
  ident : Nat
  size : Nat
deriving DecidableEq

/-- egui vertex: 2 float position, 2 float texture coordinates, packed color.
The floats are modelled as rationals. -/
structure Vertex where
  pos : ℚ × ℚ
  uv : ℚ × ℚ
  color : Nat
deriving DecidableEq

/-- egui mesh: 32-bit indices, vertices and the texture it samples. -/
structure Mesh where
  indices : List Nat
  vertices : List Vertex
  texture_id : TextureId
deriving DecidableEq

/-- A clip rectangle in logical points, min and max corners. -/
structure Rect where
  min : ℚ × ℚ
  max : ℚ × ℚ
deriving DecidableEq

/-- egui `ClippedMesh`: a clip rectangle paired with a mesh. -/
structure ClippedMesh where
  clip_rect : Rect
  mesh : Mesh
deriving DecidableEq

/-- `ScreenDescriptor` from the source. -/
structure ScreenDescriptor where
  physical_width : Nat
  physical_height : Nat
  scale_factor : ℚ
deriving DecidableEq

/-- `ScreenDescriptor::logical_size`: physical size divided by the scale
factor, each component truncated to an integer (`as u32`; the quotients are
nonnegative for the meaningful inputs, where truncation is `Int.floor`). -/
def ScreenDescriptor.logical_size (s : ScreenDescriptor) : Nat × Nat :=
  ((Int.floor ((s.physical_width : ℚ) / s.scale_factor)).toNat,
   (Int.floor ((s.physical_height : ℚ) / s.scale_factor)).toNat)

/-- egui `clamp` (external crate): restrict `x` to the interval `[lo, hi]`.
For `lo ≤ hi` this is the standard clamp used by `execute`. -/
def clampQ (x lo hi : ℚ) : ℚ := min (max x lo) hi

/-- `f32::round` followed by `as u32`, for the nonnegative values produced
by the clamping step: round half away from zero, i.e. `⌊x + 1/2⌋`. -/
def roundU32 (x : ℚ) : Nat := (Int.floor (x + 1/2)).toNat

/-- The clip rectangle scaled from logical points to physical pixels
(first step of the per-mesh loop in `execute`). -/
def physClip (sd : ScreenDescriptor) (r : Rect) : Rect :=
  { min := (sd.scale_factor * r.min.1, sd.scale_factor * r.min.2),
    max := (sd.scale_factor * r.max.1, sd.scale_factor * r.max.2) }

/-- The clamping step of `execute`: min is clamped to `[0, physical]`, and
max is clamped to `[min, physical]` (using the already-clamped min), so the
rectangle can degenerate but never inverts. -/
def clampClip (sd : ScreenDescriptor) (r : Rect) : Rect :=
  let pw : ℚ := sd.physical_width
  let ph : ℚ := sd.physical_height
  let cminx := clampQ r.min.1 0 pw
  let cminy := clampQ r.min.2 0 ph
  { min := (cminx, cminy),
    max := (clampQ r.max.1 cminx pw, clampQ r.max.2 cminy ph) }

/-- The final scissor rectangle of a mesh, before the zero-size check. -/
structure ScissorRect where
  x : Nat
  y : Nat
  w : Nat
  h : Nat
deriving DecidableEq

/-- The scissor rectangle computed by `execute` for one mesh: scale the
clip rectangle to physical pixels, clamp it into the target (min to
`[0, physical]`, max to `[min, physical]`), round every coordinate to the
nearest integer, take width and height with a floor of 1, then clamp the
rectangle against the target size.  The `u32` subtractions of the source
cannot underflow (max ≥ min and x ≤ width after clamping), so natural
subtraction is exact here. -/
def scissorRect (sd : ScreenDescriptor) (r : Rect) : ScissorRect :=
  let c := clampClip sd (physClip sd r)
  let clip_min_x := roundU32 c.min.1
  let clip_min_y := roundU32 c.min.2
  let clip_max_x := roundU32 c.max.1
  let clip_max_y := roundU32 c.max.2
  let width := max (clip_max_x - clip_min_x) 1
  let height := max (clip_max_y - clip_min_y) 1
  let x := min clip_min_x sd.physical_width
  let y := min clip_min_y sd.physical_height
  { x := x, y := y,
    w := min width (sd.physical_width - x),
    h := min height (sd.physical_height - y) }

/-- Data uploaded into a GPU buffer by `update_buffers` / `update_buffer`:
the uniform screen size, a mesh's 32-bit indices (`bytemuck::cast_slice`,
4 bytes each), or a mesh's vertices (20-byte stride: two `f32` position
components, two `f32` texture coordinates, one packed 32-bit color). -/
inductive BufferData where
  | uniform (w h : Nat) : BufferData
  | indexData (indices : List Nat) : BufferData
  | vertexData (vertices : List Vertex) : BufferData
deriving DecidableEq

/-- Byte length of the uploaded data (`data.len()` in the source): the
uniform block is two `f32`, indices are 4 bytes each, vertices 20 bytes. -/
def BufferData.byteLen : BufferData → Nat
  | .uniform _ _ => 8
  | .indexData is => 4 * is.length
  | .vertexData vs => 20 * vs.length

/-- A command submitted to the wgpu queue or device while updating buffers:
either `queue.write_buffer(buffer, offset, data)` into an existing buffer,
or `device.create_buffer_init` of a fresh buffer holding `data`. -/
inductive BufferCmd where
  | write (ident offset : Nat) (data : BufferData) : BufferCmd
  | create (ident : Nat) (data : BufferData) : BufferCmd
deriving DecidableEq

/-- The data carried by a buffer command. -/
def BufferCmd.data : BufferCmd → BufferData
  | .write _ _ d => d
  | .create _ d => d

/-- A command recorded on the render pass by `execute`. -/
inductive RenderCmd where
  | setScissor (x y w h : Nat) : RenderCmd
  | bindTexture (bg : BindGroup) : RenderCmd
  | setIndexBuffer (ident : Nat) : RenderCmd
  | setVertexBuffer (ident : Nat) : RenderCmd
  | drawIndexed (count : Nat) : RenderCmd
deriving DecidableEq

/-- The mutable state of the `RenderPass` struct.  The wgpu pipeline,
layouts, sampler and uniform bind group are construction-time constants
that no claim observes, so they are not carried in the state. -/
structure RenderPass where
  index_buffers : List SizedBuffer
  vertex_buffers : List SizedBuffer
  uniform_buffer : SizedBuffer
  texture_bind_group : Option BindGroup
  texture_version : Option Nat
  next_user_texture_id : Nat
  pending_user_textures : List (Nat × Texture)
  user_textures : List (Option BindGroup)
deriving DecidableEq

/-- `RenderPass::new`: empty buffer lists, a uniform buffer sized to the
8-byte uniform block, no system texture yet, id counter at zero.  The
wgpu handle of the initial uniform buffer is supplied as `uniformIdent`. -/
def RenderPass.new (uniformIdent : Nat) : RenderPass :=
  { index_buffers := []
    vertex_buffers := []
    uniform_buffer := { ident := uniformIdent, size := 8 }
    texture_bind_group := none
    texture_version := none
    next_user_texture_id := 0
    pending_user_textures := []
    user_textures := [] }

/-- Modelled from the spec: egui's `srgba_pixels` conversion (external to
this repository) emits one sRGBA quadruple per source pixel; the loop in
`update_texture` flattens each quadruple to four bytes, so the output has
four bytes per input pixel.  No claim inspects the byte values. -/
def srgbaBytes (pixels : List Nat) : List Nat :=
  pixels.flatMap (fun p => [p, p, p, p])

/-- The RGBA8-sRGB texture that `update_texture` builds from the incoming
egui texture before uploading it. -/
def convertTexture (t : Texture) : Texture :=
  { version := t.version, width := t.width, height := t.height,
    pixels := srgbaBytes t.pixels }

/-- `RenderPass::egui_texture_to_wgpu`: creates the GPU texture, uploads
the pixels and returns the bind group.  In the model the bind group records
the texture it was created from. -/
def RenderPass.egui_texture_to_wgpu (t : Texture) : BindGroup :=
  BindGroup.ofTexture t

/-- `RenderPass::update_texture`: no-op when the stored version equals the
incoming one; otherwise convert the pixels to RGBA bytes, rebuild the bind
group and store the new version. -/
def RenderPass.update_texture (rp : RenderPass) (t : Texture) : RenderPass :=
  if rp.texture_version = some t.version then rp
  else
    { rp with
      texture_version := some t.version
      texture_bind_group := some (RenderPass.egui_texture_to_wgpu (convertTexture t)) }

/-- `RenderPass::update_user_textures`: takes the pending uploads, creates
a bind group for each and pushes it onto `user_textures`; the pending list
is left empty.  Note that the source pushes (`user_textures.push`), it does
not write at the slot indexed by the pending id. -/
def RenderPass.update_user_textures (rp : RenderPass) : RenderPass :=
  { rp with
    pending_user_textures := []
    user_textures :=
      rp.user_textures ++
        rp.pending_user_textures.map
          (fun p => some (RenderPass.egui_texture_to_wgpu p.2)) }

/-- `RenderPass::egui_texture_from_wgpu_texture`: binds the given wgpu
texture immediately, pushes the bind group onto `user_textures`, and hands
out the next user-texture id. -/
def RenderPass.egui_texture_from_wgpu_texture (rp : RenderPass)
    (textureHandle : Nat) : TextureId × RenderPass :=
  (TextureId.User rp.next_user_texture_id,
    { rp with
      user_textures := rp.user_textures ++ [some (BindGroup.ofWgpu textureHandle)]
      next_user_texture_id := rp.next_user_texture_id + 1 })

/-- `TextureAllocator::alloc_srgba_premultiplied`: hands out the next
monotonic id, queues the pixel payload (four bytes per `Color32`, in
r, g, b, a order) as a pending upload, and returns the id. -/
def RenderPass.alloc_srgba_premultiplied (rp : RenderPass)
    (size : Nat × Nat) (srgba_pixels : List Color32) : TextureId × RenderPass :=
  let id := rp.next_user_texture_id
  let pixels := srgba_pixels.flatMap (fun c => [c.r, c.g, c.b, c.a])
  (TextureId.User id,
    { rp with
      next_user_texture_id := id + 1
      pending_user_textures :=
        rp.pending_user_textures ++
          [(id, { version := 0, width := size.1, height := size.2, pixels := pixels })] })

/-- `TextureAllocator::free`: clears the slot to `none` when the id is a
user id in range; out-of-range ids and the system texture are a no-op
(`List.set` is the identity out of range, matching `get_mut ... take`). -/
def RenderPass.free (rp : RenderPass) (id : TextureId) : RenderPass :=
  match id with
  | TextureId.Egui => rp
  | TextureId.User i => { rp with user_textures := rp.user_textures.set i none }

/-- `RenderPass::get_texture_bind_group`: resolves a texture reference to
its bind group.  `none` models the three panics of the source: the system
texture not yet set, a user id at or beyond the table length (the
`assert!`), and a freed (absent) slot. -/
def RenderPass.get_texture_bind_group (rp : RenderPass)
    (texture_id : TextureId) : Option BindGroup :=
  match texture_id with
  | TextureId.Egui => rp.texture_bind_group
  | TextureId.User i =>
    match rp.user_textures.get? i with
    | none => none
    | some slot => slot

/-- `RenderPass::update_buffer` for one buffer slot (the `BufferType`
match of the source selects which slot; callers of this model pass the
selected `SizedBuffer` directly).  If the data exceeds the capacity the
buffer is replaced by a freshly created one sized exactly to the data;
otherwise the data is written in place at offset 0 and the buffer is
untouched. -/
def RenderPass.update_buffer (b : SizedBuffer) (data : BufferData)
    (fresh : Nat) : SizedBuffer × BufferCmd :=
  if data.byteLen > b.size then
    ({ ident := fresh, size := data.byteLen }, BufferCmd.create fresh data)
  else
    (b, BufferCmd.write b.ident 0 data)

/-- One arm of the per-mesh branch in `update_buffers`: when `i` is below
the initial buffer count (`size`) the existing slot is updated through
`update_buffer`, otherwise a new buffer holding the data is created and
pushed. -/
def updateSlot (size : Nat) (bufs : List SizedBuffer) (i : Nat)
    (data : BufferData) (fresh : Nat) : List SizedBuffer × BufferCmd :=
  if i < size then
    let r := RenderPass.update_buffer (bufs.getD i { ident := 0, size := 0 }) data fresh
    (bufs.set i r.1, r.2)
  else
    (bufs ++ [{ ident := fresh, size := data.byteLen }], BufferCmd.create fresh data)

/-- The per-mesh loop of `update_buffers`: for the `i`-th mesh, update the
`i`-th index and vertex buffers in place when `i` is below the respective
initial count (`index_size` / `vertex_size`), otherwise create and push a
new buffer.  Fresh buffer handles are drawn from the counter `fresh`. -/
def updateBuffersLoop (index_size vertex_size : Nat) :
    List SizedBuffer → List SizedBuffer → List ClippedMesh → Nat → Nat →
    List SizedBuffer × List SizedBuffer × List BufferCmd × Nat
  | ib, vb, [], _, fresh => (ib, vb, [], fresh)
  | ib, vb, cm :: rest, i, fresh =>
    let stepI := updateSlot index_size ib i (BufferData.indexData cm.mesh.indices) fresh
    let stepV := updateSlot vertex_size vb i (BufferData.vertexData cm.mesh.vertices) (fresh + 1)
    let r := updateBuffersLoop index_size vertex_size stepI.1 stepV.1 rest (i + 1) (fresh + 2)
    (r.1, r.2.1, stepI.2 :: stepV.2 :: r.2.2.1, r.2.2.2)

/-- `RenderPass::update_buffers`: writes the logical screen size into the
uniform buffer, then updates or creates the per-mesh index and vertex
buffers.  Returns the new state together with the queue/device commands
issued, the uniform write first. -/
def RenderPass.update_buffers (rp : RenderPass) (paint_jobs : List ClippedMesh)
    (sd : ScreenDescriptor) (fresh : Nat) : RenderPass × List BufferCmd :=
  let index_size := rp.index_buffers.length
  let vertex_size := rp.vertex_buffers.length
  let ls := sd.logical_size
  let u := RenderPass.update_buffer rp.uniform_buffer (BufferData.uniform ls.1 ls.2) fresh
  let r := updateBuffersLoop index_size vertex_size rp.index_buffers rp.vertex_buffers
      paint_jobs 0 (fresh + 1)
  ({ rp with uniform_buffer := u.1, index_buffers := r.1, vertex_buffers := r.2.1 },
   u.2 :: r.2.2.1)

/-- The body of the per-mesh loop in `execute`: compute the scissor
rectangle; when its width or height is zero skip the mesh (no commands at
all); otherwise set the scissor, resolve and bind the texture (`none` when
resolution panics), bind the index and vertex buffers, and draw the mesh's
full index range. -/
def RenderPass.executeMesh (rp : RenderPass) (sd : ScreenDescriptor)
    (cm : ClippedMesh) (vb ib : SizedBuffer) : Option (List RenderCmd) :=
  let r := scissorRect sd cm.clip_rect
  if r.w = 0 ∨ r.h = 0 then some []
  else
    match rp.get_texture_bind_group cm.mesh.texture_id with
    | none => none
    | some bg =>
      some [RenderCmd.setScissor r.x r.y r.w r.h,
            RenderCmd.bindTexture bg,
            RenderCmd.setIndexBuffer ib.ident,
            RenderCmd.setVertexBuffer vb.ident,
            RenderCmd.drawIndexed cm.mesh.indices.length]

/-- The triples iterated by `execute`: the paint jobs zipped with the
vertex buffers and then with the index buffers, exactly as in the source;
the zip truncates to the shortest of the three lists. -/
def RenderPass.executeTriples (rp : RenderPass) (paint_jobs : List ClippedMesh) :
    List ((ClippedMesh × SizedBuffer) × SizedBuffer) :=
  (paint_jobs.zip rp.vertex_buffers).zip rp.index_buffers

/-- Runs `executeMesh` over a list of triples, concatenating the recorded
commands; a panic (`none`) in any mesh aborts the whole pass. -/
def RenderPass.executeList (rp : RenderPass) (sd : ScreenDescriptor) :
    List ((ClippedMesh × SizedBuffer) × SizedBuffer) → Option (List RenderCmd)
  | [] => some []
  | t :: rest =>
    match rp.executeMesh sd t.1.1 t.1.2 t.2 with
    | none => none
    | some cmds =>
      match RenderPass.executeList rp sd rest with
      | none => none
      | some more => some (cmds ++ more)

/-- `RenderPass::execute`: the sequence of render commands recorded for
the given paint jobs (after the fixed pipeline/uniform setup, which no
claim observes).  `none` models a panic inside the loop. -/
def RenderPass.execute (rp : RenderPass) (sd : ScreenDescriptor)
    (paint_jobs : List ClippedMesh) : Option (List RenderCmd) :=
  rp.executeList sd (rp.executeTriples paint_jobs)

/-- Number of indexed draw calls in a recorded command list. -/
def drawsIssued (cmds : List RenderCmd) : Nat :=
  cmds.countP (fun c => match c with | RenderCmd.drawIndexed _ => true | _ => false)

/-- An operation on the backend state that can allocate, free or touch
textures; used to express trace properties over arbitrary interleavings. -/
inductive Op where
  | alloc (size : Nat × Nat) (pixels : List Color32) : Op
  | fromWgpu (textureHandle : Nat) : Op
  | freeTex (id : TextureId) : Op
  | flush : Op
  | updateTex (t : Texture) : Op
deriving DecidableEq

/-- Applies one operation; returns the new state and the user-texture id
handed out, when the operation allocates one. -/
def applyOp (rp : RenderPass) : Op → RenderPass × Option Nat
  | Op.alloc size pixels =>
    let r := rp.alloc_srgba_premultiplied size pixels
    (r.2, match r.1 with | TextureId.User i => some i | TextureId.Egui => none)
  | Op.fromWgpu h =>
    let r := rp.egui_texture_from_wgpu_texture h
    (r.2, match r.1 with | TextureId.User i => some i | TextureId.Egui => none)
  | Op.freeTex id => (rp.free id, none)
  | Op.flush => (rp.update_user_textures, none)
  | Op.updateTex t => (rp.update_texture t, none)

/-- Runs a list of operations, collecting the allocated ids in order. -/
def runOps : RenderPass → List Op → RenderPass × List Nat
  | rp, [] => (rp, [])
  | rp, op :: rest =>
    let r := applyOp rp op
    let r2 := runOps r.1 rest
    (r2.1, (match r.2 with | some i => [i] | none => []) ++ r2.2)

/-- Number of allocating operations in a trace. -/
def allocCount (ops : List Op) : Nat :=
  ops.countP (fun op =>
    match op with
    | Op.alloc _ _ => true
    | Op.fromWgpu _ => true
    | _ => false)

/-- Repeated `update_buffer` calls on one buffer slot, each with its data
and the handle a reallocation would use. -/
def applyUpdates (b : SizedBuffer) (us : List (BufferData × Nat)) : SizedBuffer :=
  us.foldl (fun acc u => (RenderPass.update_buffer acc u.1 u.2).1) b

/-! ## Supporting lemmas -/

lemma update_buffer_size_le (b : SizedBuffer) (data : BufferData) (f : Nat) :
    b.size ≤ ((RenderPass.update_buffer b data f).1).size := by
  unfold RenderPass.update_buffer
  split
  · exact Nat.le_of_lt (by assumption)
  · exact Nat.le_refl _

lemma applyUpdates_mono :
    ∀ (us : List (BufferData × Nat)) (b : SizedBuffer),
      b.size ≤ (applyUpdates b us).size
  | [], _ => Nat.le_refl _
  | u :: us, b =>
    Nat.le_trans (update_buffer_size_le b u.1 u.2)
      (applyUpdates_mono us ((RenderPass.update_buffer b u.1 u.2).1))

lemma update_texture_noop (rp : RenderPass) (t : Texture)
    (h : rp.texture_version = some t.version) : rp.update_texture t = rp := by
  unfold RenderPass.update_texture
  rw [if_pos h]

lemma update_texture_next (rp : RenderPass) (t : Texture) :
    (rp.update_texture t).next_user_texture_id = rp.next_user_texture_id := by
  unfold RenderPass.update_texture
  split <;> rfl

lemma runOps_range :
    ∀ (ops : List Op) (rp : RenderPass),
      (runOps rp ops).2 = List.range' rp.next_user_texture_id (allocCount ops) := by
  intro ops
  induction ops with
  | nil => intro rp; simp [runOps, allocCount]
  | cons op rest ih =>
    intro rp
    cases op with
    | alloc size px =>
      simp only [runOps, applyOp, RenderPass.alloc_srgba_premultiplied, ih,
        allocCount, List.countP_cons]
      exact (List.range'_succ _ _ _).symm
    | fromWgpu h =>
      simp only [runOps, applyOp, RenderPass.egui_texture_from_wgpu_texture, ih,
        allocCount, List.countP_cons]
      exact (List.range'_succ _ _ _).symm
    | freeTex id =>
      simp only [runOps, applyOp, RenderPass.free, ih, allocCount, List.countP_cons]
      cases id <;> simp [allocCount]
    | flush =>
      simp only [runOps, applyOp, RenderPass.update_user_textures, ih,
        allocCount, List.countP_cons]
      simp [allocCount]
    | updateTex t =>
      simp only [runOps, applyOp, ih, allocCount, List.countP_cons]
      simp [allocCount, update_texture_next]

/-! ## Claim theorems -/

/-- C1: for every sequence of `update_buffer` calls on one buffer slot the
stored capacity is monotonically non-decreasing; when the incoming data's
byte length is at most the current capacity the data is written in place at
offset 0 and the buffer object and capacity are unchanged; when it exceeds
the capacity the buffer is replaced by a freshly created one whose capacity
is exactly the data's byte length. -/
theorem C1_update_buffer_capacity (b : SizedBuffer) (data : BufferData) (fresh : Nat) :
    (data.byteLen ≤ b.size →
      RenderPass.update_buffer b data fresh = (b, BufferCmd.write b.ident 0 data))
    ∧ (b.size < data.byteLen →
      RenderPass.update_buffer b data fresh =
        ({ ident := fresh, size := data.byteLen }, BufferCmd.create fresh data))
    ∧ (∀ us : List (BufferData × Nat), b.size ≤ (applyUpdates b us).size) := by
  refine ⟨fun h => ?_, fun h => ?_, fun us => applyUpdates_mono us b⟩
  · unfold RenderPass.update_buffer
    rw [if_neg (by omega)]
  · unfold RenderPass.update_buffer
    rw [if_pos (by omega)]

/-- Witness for C1 at concrete inputs: writing 8 bytes into a 10-byte
buffer keeps the buffer, writing 12 bytes replaces it. -/
theorem C1_update_buffer_capacity_witness :
    RenderPass.update_buffer ⟨1, 10⟩ (BufferData.indexData [1, 2]) 5 =
      (⟨1, 10⟩, BufferCmd.write 1 0 (BufferData.indexData [1, 2]))
    ∧ RenderPass.update_buffer ⟨1, 10⟩ (BufferData.indexData [1, 2, 3]) 5 =
      (⟨5, 12⟩, BufferCmd.create 5 (BufferData.indexData [1, 2, 3])) :=
  ⟨(C1_update_buffer_capacity ⟨1, 10⟩ (BufferData.indexData [1, 2]) 5).1 (by decide),
   (C1_update_buffer_capacity ⟨1, 10⟩ (BufferData.indexData [1, 2, 3]) 5).2.1 (by decide)⟩

/-- C2: across any trace of operations on a fresh `RenderPass`, the ids
handed out by the allocating operations are exactly 0, 1, 2, … in order,
regardless of intervening frees, flushes or texture updates; in particular
allocating twice, freeing id 0 and allocating again yields ids 0, 1, 2. -/
theorem C2_user_texture_ids (ops : List Op) :
    (runOps (RenderPass.new 0) ops).2 = List.range (allocCount ops)
    ∧ (runOps (RenderPass.new 0)
        [Op.alloc (1, 1) [], Op.alloc (1, 1) [], Op.freeTex (TextureId.User 0),
         Op.alloc (1, 1) []]).2 = [0, 1, 2] := by
  constructor
  · rw [runOps_range ops (RenderPass.new 0), List.range_eq_range']
    rfl
  · decide

/-- C4: `update_texture` is a complete no-op when the incoming version
equals the stored one; otherwise it stores the new version and the rebuilt
bind group and leaves every other field unchanged; a second update with
the same version does nothing. -/
theorem C4_update_texture_version (rp : RenderPass) (t : Texture) :
    (rp.texture_version = some t.version → rp.update_texture t = rp)
    ∧ (rp.texture_version ≠ some t.version →
        (rp.update_texture t).texture_version = some t.version
        ∧ (rp.update_texture t).texture_bind_group
            = some (RenderPass.egui_texture_to_wgpu (convertTexture t))
        ∧ (rp.update_texture t).index_buffers = rp.index_buffers
        ∧ (rp.update_texture t).vertex_buffers = rp.vertex_buffers
        ∧ (rp.update_texture t).uniform_buffer = rp.uniform_buffer
        ∧ (rp.update_texture t).next_user_texture_id = rp.next_user_texture_id
        ∧ (rp.update_texture t).pending_user_textures = rp.pending_user_textures
        ∧ (rp.update_texture t).user_textures = rp.user_textures)
    ∧ (rp.update_texture t).update_texture t = rp.update_texture t := by
  refine ⟨fun h => update_texture_noop rp t h, fun h => ?_, ?_⟩
  · unfold RenderPass.update_texture
    rw [if_neg h]
    refine ⟨?_, ?_, ?_, ?_, ?_, ?_, ?_, ?_⟩ <;> rfl
  · have hver : (rp.update_texture t).texture_version = some t.version := by
      unfold RenderPass.update_texture
      split
      · assumption
      · rfl
    exact update_texture_noop (rp.update_texture t) t hver

/-- Witness for C4: updating a fresh pass (no stored version) with version
1 stores version 1, and updating a pass already at version 1 with version 1
changes nothing. -/
theorem C4_update_texture_version_witness :
    ((RenderPass.new 0).update_texture ⟨1, 1, 1, [0]⟩).texture_version = some 1
    ∧ ((RenderPass.new 0).update_texture ⟨1, 1, 1, [0]⟩).update_texture ⟨1, 1, 1, [0]⟩
        = (RenderPass.new 0).update_texture ⟨1, 1, 1, [0]⟩ :=
  ⟨((C4_update_texture_version (RenderPass.new 0) ⟨1, 1, 1, [0]⟩).2.1 (by decide)).1,
   (C4_update_texture_version (RenderPass.new 0) ⟨1, 1, 1, [0]⟩).2.2⟩

/-- C7: resolving a texture reference fails (panics, modelled as `none`)
exactly when the reference is a user id at or beyond the slot-table length,
a user id whose slot is absent, or the system texture before it was ever
set; a present user slot or the set system texture resolves to the stored
bind group. -/
theorem C7_get_texture_bind_group (rp : RenderPass) (id : TextureId) :
    (rp.get_texture_bind_group id = none ↔
      (id = TextureId.Egui ∧ rp.texture_bind_group = none)
      ∨ (∃ k, id = TextureId.User k ∧
          (rp.user_textures.length ≤ k ∨ rp.user_textures.get? k = some none)))
    ∧ (∀ bg, id = TextureId.Egui → rp.texture_bind_group = some bg →
        rp.get_texture_bind_group id = some bg)
    ∧ (∀ k bg, id = TextureId.User k → rp.user_textures.get? k = some (some bg) →
        rp.get_texture_bind_group id = some bg) := by
  refine ⟨?_, ?_, ?_⟩
  · cases id with
    | Egui =>
      simp only [RenderPass.get_texture_bind_group]
      constructor
      · intro h
        exact Or.inl ⟨trivial, h⟩
      · intro h
        rcases h with ⟨_, h⟩ | ⟨k, hk, _⟩
        · exact h
        · exact absurd hk (by simp)
    | User i =>
      simp only [RenderPass.get_texture_bind_group]
      cases hslot : rp.user_textures.get? i with
      | none =>
        simp only [true_iff]
        exact Or.inr ⟨i, rfl, Or.inl (List.get?_eq_none.mp hslot)⟩
      | some slot =>
        cases slot with
        | none =>
          simp only [true_iff]
          exact Or.inr ⟨i, rfl, Or.inr hslot⟩
        | some bg =>
          simp only [reduceCtorEq, false_iff]
          intro h
          rcases h with ⟨h, _⟩ | ⟨k, hk, hcase⟩
          · exact absurd h (by simp)
          · cases hk
            rcases hcase with hlen | habs
            · exact absurd hslot (by rw [List.get?_eq_none.mpr hlen]; simp)
            · rw [hslot] at habs
              exact absurd habs (by simp)
  · intro bg hid hbg
    cases hid
    simpa [RenderPass.get_texture_bind_group] using hbg
  · intro k bg hid hslot
    cases hid
    simp only [RenderPass.get_texture_bind_group]
    rw [hslot]

/-- Witness for C7 on a concrete table: slot 0 present resolves, slot 1
freed and slot 5 out of range fail, system texture unset fails. -/
theorem C7_get_texture_bind_group_witness :
    ({ RenderPass.new 0 with
        user_textures := [some (BindGroup.ofWgpu 3), none] } :
        RenderPass).get_texture_bind_group (TextureId.User 0)
      = some (BindGroup.ofWgpu 3) :=
  (C7_get_texture_bind_group
      { RenderPass.new 0 with user_textures := [some (BindGroup.ofWgpu 3), none] }
      (TextureId.User 0)).2.2 0 (BindGroup.ofWgpu 3) rfl rfl

/-- C3 (code bug): after allocating a pending texture (id 0), registering
a wgpu texture directly (id 1), and flushing, the pending list is empty but
the pending texture's bind group was pushed to slot 1, so resolving id 0
returns the wgpu-registered bind group instead of the resource allocated
under id 0 (`update_user_textures` pushes instead of storing at the id's
slot). -/
theorem C3_flush_misplaces_pending :
    (((RenderPass.new 0).alloc_srgba_premultiplied (1, 1) [⟨1, 2, 3, 4⟩]).1
        = TextureId.User 0)
    ∧ ((((RenderPass.new 0).alloc_srgba_premultiplied (1, 1)
            [⟨1, 2, 3, 4⟩]).2.egui_texture_from_wgpu_texture 7).1
        = TextureId.User 1)
    ∧ ((((RenderPass.new 0).alloc_srgba_premultiplied (1, 1)
            [⟨1, 2, 3, 4⟩]).2.egui_texture_from_wgpu_texture
            7).2.update_user_textures.pending_user_textures = [])
    ∧ ((((RenderPass.new 0).alloc_srgba_premultiplied (1, 1)
            [⟨1, 2, 3, 4⟩]).2.egui_texture_from_wgpu_texture
            7).2.update_user_textures.get_texture_bind_group (TextureId.User 0)
        = some (BindGroup.ofWgpu 7))
    ∧ ((((RenderPass.new 0).alloc_srgba_premultiplied (1, 1)
            [⟨1, 2, 3, 4⟩]).2.egui_texture_from_wgpu_texture
            7).2.update_user_textures.get_texture_bind_group (TextureId.User 0)
        ≠ some (RenderPass.egui_texture_to_wgpu ⟨0, 1, 1, [1, 2, 3, 4]⟩)) := by
  decide

/-- C5: the concrete clip rectangle min (-10,-10), max (50,50) at scale 1
on an 800×600 target produces scissor min (0,0) with width and height 50;
in general the clamping step keeps min in `[0, physical]` and max in
`[min, physical]` (the rectangle may degenerate but never inverts), and the
final rectangle never exceeds the physical target bounds. -/
theorem C5_scissor_transform (sd : ScreenDescriptor) (r : Rect) :
    scissorRect ⟨800, 600, 1⟩ ⟨(-10, -10), (50, 50)⟩ = ⟨0, 0, 50, 50⟩
    ∧ (0 ≤ (clampClip sd (physClip sd r)).min.1
       ∧ (clampClip sd (physClip sd r)).min.1 ≤ (clampClip sd (physClip sd r)).max.1
       ∧ (clampClip sd (physClip sd r)).max.1 ≤ (sd.physical_width : ℚ)
       ∧ 0 ≤ (clampClip sd (physClip sd r)).min.2
       ∧ (clampClip sd (physClip sd r)).min.2 ≤ (clampClip sd (physClip sd r)).max.2
       ∧ (clampClip sd (physClip sd r)).max.2 ≤ (sd.physical_height : ℚ))
    ∧ ((scissorRect sd r).x + (scissorRect sd r).w ≤ sd.physical_width
       ∧ (scissorRect sd r).y + (scissorRect sd r).h ≤ sd.physical_height) := by
  refine ⟨?_, ?_, ?_⟩
  · have hc : clampClip ⟨800, 600, 1⟩ (physClip ⟨800, 600, 1⟩ ⟨(-10, -10), (50, 50)⟩)
        = ⟨(0, 0), (50, 50)⟩ := by
      simp only [physClip, clampClip, clampQ]
      rw [Rect.mk.injEq]
      norm_num [max_def, min_def]
    have h0 : roundU32 0 = 0 := by
      have h : Int.floor ((0:ℚ) + 1/2) = 0 := by norm_num
      unfold roundU32
      rw [h]
      rfl
    have h50 : roundU32 50 = 50 := by
      have h : Int.floor ((50:ℚ) + 1/2) = 50 := by norm_num
      unfold roundU32
      rw [h]
      rfl
    simp only [scissorRect, hc, h0, h50]
    decide
  · simp only [clampClip, clampQ, physClip]
    have hpw : (0:ℚ) ≤ sd.physical_width := Nat.cast_nonneg _
    have hph : (0:ℚ) ≤ sd.physical_height := Nat.cast_nonneg _
    refine ⟨le_min (le_max_right _ _) hpw,
            le_min (le_max_right _ _) (min_le_right _ _),
            min_le_right _ _,
            le_min (le_max_right _ _) hph,
            le_min (le_max_right _ _) (min_le_right _ _),
            min_le_right _ _⟩
  · simp only [scissorRect]
    constructor
    · have h1 : min (roundU32 (clampClip sd (physClip sd r)).min.1)
          sd.physical_width ≤ sd.physical_width := min_le_right _ _
      have h2 : min (max (roundU32 (clampClip sd (physClip sd r)).max.1
            - roundU32 (clampClip sd (physClip sd r)).min.1) 1)
          (sd.physical_width - min (roundU32 (clampClip sd (physClip sd r)).min.1)
            sd.physical_width)
          ≤ sd.physical_width - min (roundU32 (clampClip sd (physClip sd r)).min.1)
            sd.physical_width := min_le_right _ _
      omega
    · have h1 : min (roundU32 (clampClip sd (physClip sd r)).min.2)
          sd.physical_height ≤ sd.physical_height := min_le_right _ _
      have h2 : min (max (roundU32 (clampClip sd (physClip sd r)).max.2
            - roundU32 (clampClip sd (physClip sd r)).min.2) 1)
          (sd.physical_height - min (roundU32 (clampClip sd (physClip sd r)).min.2)
            sd.physical_height)
          ≤ sd.physical_height - min (roundU32 (clampClip sd (physClip sd r)).min.2)
            sd.physical_height := min_le_right _ _
      omega

/-- The scissor rectangle of a clip rectangle sitting on the right edge of
an 800×600 target degenerates to width 0 after the final target clamp. -/
lemma scissor_right_edge :
    scissorRect ⟨800, 600, 1⟩ ⟨(800, 0), (800, 600)⟩ = ⟨800, 0, 0, 600⟩ := by
  have hc : clampClip ⟨800, 600, 1⟩ (physClip ⟨800, 600, 1⟩ ⟨(800, 0), (800, 600)⟩)
      = ⟨(800, 0), (800, 600)⟩ := by
    simp only [physClip, clampClip, clampQ]
    rw [Rect.mk.injEq]
    norm_num [max_def, min_def]
  have h0 : roundU32 0 = 0 := by
    have h : Int.floor ((0:ℚ) + 1/2) = 0 := by norm_num
    unfold roundU32
    rw [h]
    rfl
  have h800 : roundU32 800 = 800 := by
    have h : Int.floor ((800:ℚ) + 1/2) = 800 := by norm_num
    unfold roundU32
    rw [h]
    rfl
  have h600 : roundU32 600 = 600 := by
    have h : Int.floor ((600:ℚ) + 1/2) = 600 := by norm_num
    unfold roundU32
    rw [h]
    rfl
  simp only [scissorRect, hc, h0, h800, h600]
  decide

/-- C6: a mesh whose final clamped scissor width or height is zero is
skipped entirely by `execute`: no commands at all are recorded for it (no
scissor, no texture lookup or bind, no buffer binds, no draw), it cannot
panic, and processing continues with the remaining meshes. -/
theorem C6_skip_degenerate (rp : RenderPass) (sd : ScreenDescriptor)
    (cm : ClippedMesh) (vb ib : SizedBuffer)
    (h : (scissorRect sd cm.clip_rect).w = 0 ∨ (scissorRect sd cm.clip_rect).h = 0) :
    rp.executeMesh sd cm vb ib = some []
    ∧ ∀ rest, rp.executeList sd (((cm, vb), ib) :: rest) = rp.executeList sd rest := by
  have hm : rp.executeMesh sd cm vb ib = some [] := by
    simp only [RenderPass.executeMesh]
    rw [if_pos h]
  refine ⟨hm, fun rest => ?_⟩
  simp only [RenderPass.executeList]
  rw [hm]
  cases hrest : RenderPass.executeList rp sd rest <;> simp

/-- Witness for C6: a clip rectangle on the right edge of the target is
skipped and drops out of the command stream. -/
theorem C6_skip_degenerate_witness :
    (RenderPass.new 0).executeMesh ⟨800, 600, 1⟩
        ⟨⟨(800, 0), (800, 600)⟩, ⟨[], [], TextureId.Egui⟩⟩ ⟨0, 0⟩ ⟨0, 0⟩ = some [] :=
  (C6_skip_degenerate (RenderPass.new 0) ⟨800, 600, 1⟩
      ⟨⟨(800, 0), (800, 600)⟩, ⟨[], [], TextureId.Egui⟩⟩ ⟨0, 0⟩ ⟨0, 0⟩
      (Or.inl (show (scissorRect ⟨800, 600, 1⟩ ⟨(800, 0), (800, 600)⟩).w = 0 by
        rw [scissor_right_edge]))).1

lemma updateSlot_length (size : Nat) (bufs : List SizedBuffer) (i : Nat)
    (data : BufferData) (fresh : Nat) (h : bufs.length = max size i) :
    ((updateSlot size bufs i data fresh).1).length = max size (i + 1) := by
  unfold updateSlot
  by_cases hi : i < size
  · rw [if_pos hi]
    simp only [List.length_set]
    rw [h, max_eq_left (Nat.le_of_lt hi), max_eq_left hi]
  · rw [if_neg hi]
    simp only [List.length_append, List.length_singleton]
    have hle : size ≤ i := Nat.le_of_not_lt hi
    rw [h, max_eq_right hle, max_eq_right (Nat.le_succ_of_le hle)]

lemma updateBuffersLoop_length (is vs : Nat) :
    ∀ (meshes : List ClippedMesh) (ib vb : List SizedBuffer) (i fresh : Nat),
      ib.length = max is i → vb.length = max vs i →
      ((updateBuffersLoop is vs ib vb meshes i fresh).1.length
          = max is (i + meshes.length))
      ∧ ((updateBuffersLoop is vs ib vb meshes i fresh).2.1.length
          = max vs (i + meshes.length)) := by
  intro meshes
  induction meshes with
  | nil =>
    intro ib vb i fresh hib hvb
    simp only [updateBuffersLoop, List.length_nil, Nat.add_zero]
    exact ⟨hib, hvb⟩
  | cons cm rest ih =>
    intro ib vb i fresh hib hvb
    simp only [updateBuffersLoop]
    have hib2 := updateSlot_length is ib i (BufferData.indexData cm.mesh.indices) fresh hib
    have hvb2 := updateSlot_length vs vb i (BufferData.vertexData cm.mesh.vertices)
      (fresh + 1) hvb
    have hrec := ih (updateSlot is ib i (BufferData.indexData cm.mesh.indices) fresh).1
      (updateSlot vs vb i (BufferData.vertexData cm.mesh.vertices) (fresh + 1)).1
      (i + 1) (fresh + 2) hib2 hvb2
    have harith : i + 1 + rest.length = i + (cm :: rest).length := by
      simp [List.length_cons]
      omega
    rw [harith] at hrec
    exact hrec

lemma update_texture_buffers (rp : RenderPass) (t : Texture) :
    (rp.update_texture t).index_buffers = rp.index_buffers
    ∧ (rp.update_texture t).vertex_buffers = rp.vertex_buffers := by
  unfold RenderPass.update_texture
  split <;> exact ⟨rfl, rfl⟩

lemma executeMesh_draws_le_one (rp : RenderPass) (sd : ScreenDescriptor)
    (cm : ClippedMesh) (vb ib : SizedBuffer) (cmds : List RenderCmd)
    (h : rp.executeMesh sd cm vb ib = some cmds) : drawsIssued cmds ≤ 1 := by
  simp only [RenderPass.executeMesh] at h
  by_cases hz : (scissorRect sd cm.clip_rect).w = 0 ∨ (scissorRect sd cm.clip_rect).h = 0
  · rw [if_pos hz] at h
    cases h
    simp [drawsIssued]
  · rw [if_neg hz] at h
    cases hbg : rp.get_texture_bind_group cm.mesh.texture_id with
    | none => rw [hbg] at h; exact absurd h (by simp)
    | some bg =>
      rw [hbg] at h
      cases h
      simp [drawsIssued, List.countP_cons]

lemma executeList_draws (rp : RenderPass) (sd : ScreenDescriptor) :
    ∀ (triples : List ((ClippedMesh × SizedBuffer) × SizedBuffer))
      (cmds : List RenderCmd),
      rp.executeList sd triples = some cmds → drawsIssued cmds ≤ triples.length := by
  intro triples
  induction triples with
  | nil =>
    intro cmds h
    simp only [RenderPass.executeList] at h
    cases h
    simp [drawsIssued]
  | cons t rest ih =>
    intro cmds h
    simp only [RenderPass.executeList] at h
    cases hm : rp.executeMesh sd t.1.1 t.1.2 t.2 with
    | none => rw [hm] at h; exact absurd h (by simp)
    | some c =>
      rw [hm] at h
      cases hr : RenderPass.executeList rp sd rest with
      | none => rw [hr] at h; exact absurd h (by simp)
      | some more =>
        rw [hr] at h
        cases h
        have hc := executeMesh_draws_le_one rp sd t.1.1 t.1.2 t.2 c hm
        have hrest := ih more hr
        simp only [drawsIssued, List.countP_append, List.length_cons] at hc hrest ⊢
        omega

lemma take_min_zip_zip {α β γ : Type} :
    ∀ (a : List α) (b : List β) (c : List γ),
      ((a.take (min b.length c.length)).zip b).zip c = (a.zip b).zip c := by
  intro a
  induction a with
  | nil => intro b c; simp
  | cons x xs ih =>
    intro b c
    cases b with
    | nil => simp
    | cons y ys =>
      cases c with
      | nil => simp
      | cons z zs =>
        simp only [List.length_cons, Nat.succ_min_succ, List.take_succ_cons,
          List.zip_cons_cons]
        rw [ih ys zs]

lemma update_buffer_cmd_data (b : SizedBuffer) (d : BufferData) (f : Nat) :
    ((RenderPass.update_buffer b d f).2).data = d := by
  unfold RenderPass.update_buffer
  split <;> rfl

/-- C8: after `update_buffers` the vertex and index buffer counts are equal
(given they were equal before, as they are from construction on), both equal
`max` of the old count and the mesh count, hence cover every mesh; any
successful `execute` on the result issues at most that many draws; and no
texture operation of the backend touches either buffer list. -/
theorem C8_buffer_count_invariant (rp : RenderPass) (jobs : List ClippedMesh)
    (sd : ScreenDescriptor) (fresh : Nat) (cmds : List RenderCmd)
    (h : rp.index_buffers.length = rp.vertex_buffers.length) :
    ((rp.update_buffers jobs sd fresh).1.index_buffers.length
      = (rp.update_buffers jobs sd fresh).1.vertex_buffers.length)
    ∧ ((rp.update_buffers jobs sd fresh).1.index_buffers.length
      = max rp.index_buffers.length jobs.length)
    ∧ (jobs.length ≤ (rp.update_buffers jobs sd fresh).1.index_buffers.length)
    ∧ ((rp.update_buffers jobs sd fresh).1.execute sd jobs = some cmds →
        drawsIssued cmds ≤ (rp.update_buffers jobs sd fresh).1.index_buffers.length
        ∧ drawsIssued cmds ≤ (rp.update_buffers jobs sd fresh).1.vertex_buffers.length)
    ∧ (∀ op, (applyOp rp op).1.index_buffers = rp.index_buffers
        ∧ (applyOp rp op).1.vertex_buffers = rp.vertex_buffers) := by
  have hloop := updateBuffersLoop_length rp.index_buffers.length rp.vertex_buffers.length
    jobs rp.index_buffers rp.vertex_buffers 0 (fresh + 1)
    (Nat.max_zero rp.index_buffers.length).symm
    (Nat.max_zero rp.vertex_buffers.length).symm
  have hib : (rp.update_buffers jobs sd fresh).1.index_buffers.length
      = max rp.index_buffers.length jobs.length := by
    simp only [RenderPass.update_buffers]
    simpa using hloop.1
  have hvb : (rp.update_buffers jobs sd fresh).1.vertex_buffers.length
      = max rp.vertex_buffers.length jobs.length := by
    simp only [RenderPass.update_buffers]
    simpa using hloop.2
  refine ⟨by rw [hib, hvb, h], hib, ?_, fun hex => ?_, fun op => ?_⟩
  · rw [hib]
    exact Nat.le_max_right _ _
  · have hd := executeList_draws (rp.update_buffers jobs sd fresh).1 sd
      ((rp.update_buffers jobs sd fresh).1.executeTriples jobs) cmds hex
    have htr : ((rp.update_buffers jobs sd fresh).1.executeTriples jobs).length
        ≤ jobs.length := by
      simp only [RenderPass.executeTriples, List.length_zip]
      exact Nat.le_trans (Nat.min_le_left _ _) (Nat.min_le_left _ _)
    constructor
    · exact Nat.le_trans (Nat.le_trans hd htr) (by rw [hib]; exact Nat.le_max_right _ _)
    · exact Nat.le_trans (Nat.le_trans hd htr) (by rw [hvb]; exact Nat.le_max_right _ _)
  · cases op with
    | alloc size px =>
      exact ⟨rfl, rfl⟩
    | fromWgpu hdl => exact ⟨rfl, rfl⟩
    | freeTex id => cases id <;> exact ⟨rfl, rfl⟩
    | flush => exact ⟨rfl, rfl⟩
    | updateTex t => exact update_texture_buffers rp t

/-- Witness for C8: on a fresh pass with one mesh, both buffer lists end up
with length one. -/
theorem C8_buffer_count_invariant_witness :
    ((RenderPass.new 0).update_buffers
        [⟨⟨(0, 0), (1, 1)⟩, ⟨[0, 1, 2], [], TextureId.Egui⟩⟩]
        ⟨800, 600, 1⟩ 0).1.index_buffers.length
      = ((RenderPass.new 0).update_buffers
        [⟨⟨(0, 0), (1, 1)⟩, ⟨[0, 1, 2], [], TextureId.Egui⟩⟩]
        ⟨800, 600, 1⟩ 0).1.vertex_buffers.length :=
  (C8_buffer_count_invariant (RenderPass.new 0)
    [⟨⟨(0, 0), (1, 1)⟩, ⟨[0, 1, 2], [], TextureId.Egui⟩⟩]
    ⟨800, 600, 1⟩ 0 [] rfl).1

/-- C9: the logical size of an 800×600 screen at scale factor 2 is 400×300,
and every `update_buffers` call writes exactly the logical width and height
of the given screen descriptor into the uniform buffer as its first
command. -/
theorem C9_logical_size_uniform (rp : RenderPass) (jobs : List ClippedMesh)
    (sd : ScreenDescriptor) (fresh : Nat) :
    ScreenDescriptor.logical_size ⟨800, 600, 2⟩ = (400, 300)
    ∧ ∃ cmd, (rp.update_buffers jobs sd fresh).2.head? = some cmd
        ∧ cmd.data = BufferData.uniform sd.logical_size.1 sd.logical_size.2 := by
  constructor
  · unfold ScreenDescriptor.logical_size
    rw [Prod.mk.injEq]
    constructor
    · show (Int.floor (((800 : Nat) : ℚ) / (2 : ℚ))).toNat = 400
      have h : Int.floor (((800 : Nat) : ℚ) / (2 : ℚ)) = 400 := by norm_num
      rw [h]
      rfl
    · show (Int.floor (((600 : Nat) : ℚ) / (2 : ℚ))).toNat = 300
      have h : Int.floor (((600 : Nat) : ℚ) / (2 : ℚ)) = 300 := by norm_num
      rw [h]
      rfl
  · refine ⟨(RenderPass.update_buffer rp.uniform_buffer
        (BufferData.uniform sd.logical_size.1 sd.logical_size.2) fresh).2, ?_, ?_⟩
    · simp only [RenderPass.update_buffers, List.head?_cons]
    · exact update_buffer_cmd_data _ _ _

/-- C10: `execute` iterates over exactly the first
`min (number of meshes) (min (vertex buffer count) (index buffer count))`
meshes — the triple zip has that length, meshes beyond the uploaded buffer
slots are silently dropped (taking that prefix of the paint jobs changes
nothing), and with no uploaded buffers the pass records no commands and
does not panic. -/
theorem C10_execute_zip_bounds (rp : RenderPass) (sd : ScreenDescriptor)
    (jobs : List ClippedMesh) :
    ((rp.executeTriples jobs).length
      = min jobs.length (min rp.vertex_buffers.length rp.index_buffers.length))
    ∧ (rp.execute sd jobs
      = rp.execute sd
          (jobs.take (min rp.vertex_buffers.length rp.index_buffers.length)))
    ∧ (rp.vertex_buffers = [] → rp.execute sd jobs = some [])
    ∧ (rp.index_buffers = [] → rp.execute sd jobs = some []) := by
  refine ⟨?_, ?_, fun hv => ?_, fun hi => ?_⟩
  · simp [RenderPass.executeTriples, List.length_zip, Nat.min_assoc]
  · show rp.executeList sd (rp.executeTriples jobs)
      = rp.executeList sd (rp.executeTriples (jobs.take _))
    unfold RenderPass.executeTriples
    rw [take_min_zip_zip]
  · unfold RenderPass.execute RenderPass.executeTriples
    rw [hv]
    simp [RenderPass.executeList]
  · unfold RenderPass.execute RenderPass.executeTriples
    rw [hi]
    simp [RenderPass.executeList]

/-- Witness for C10: a fresh pass (no buffers uploaded yet) executes any
job list to an empty command stream without panicking. -/
theorem C10_execute_zip_bounds_witness :
    (RenderPass.new 0).execute ⟨800, 600, 1⟩ [] = some [] :=
  (C10_execute_zip_bounds (RenderPass.new 0) ⟨800, 600, 1⟩ []).2.2.1 rfl

end EguiWgpu
